import Mathlib

/-
Verification of `genai_file_search.py`, a linear tutorial script driving a
remote "File Search" document store: store creation and lookup by display
name, concurrent multi-file upload with a bounded worker pool, poll-until-done
on asynchronous upload operations, and a delete-then-reupload update step.

The remote service (stores, documents, upload operations) is modelled as
explicit parameters: a listing is a list of entries, an upload operation is a
stream of operation states indexed by the number of `operations.get` re-queries
performed.  The script's loops become recursive functions over these inputs,
and the observable calls the script issues are recorded as event traces.
-/

/-- A remote File Search store: server-assigned opaque `name` plus the
user-chosen `display_name` (entries of `client.file_search_stores.list`). -/
structure Store where
  name : String
  display_name : String
deriving DecidableEq, Repr

/-- A remote document inside a store: server-assigned opaque `name` plus the
user-chosen `display_name` (entries of `client.file_search_stores.documents.list`). -/
structure Document where
  name : String
  display_name : String
deriving DecidableEq, Repr

/-- A remote upload Operation as returned by `upload_to_file_search_store` and
re-fetched by `client.operations.get`: a `done` flag and, once done, either a
produced document (`response`) or a failure `reason`. -/
structure Operation where
  done : Bool
  response : Option Document := none
  reason : Option String := none
deriving DecidableEq, Repr

/-- `file_store_name = 'my-example-store'` (source line 38). -/
def file_store_name : String := "my-example-store"

/-- `docs_dir = "docs"` (source line 39). -/
def docs_dir : String := "docs"

/-- The `for entry in listing: if entry.display_name == target: ... break` scan
shared by the store lookup (lines 55-59) and the document lookup (lines
141-149): return the first entry whose display name equals the target, `none`
when the listing is exhausted. -/
def firstWithDisplayName {α : Type} (dn : α → String) (target : String) :
    List α → Option α
  | [] => none
  | x :: rest =>
    if dn x == target then some x else firstWithDisplayName dn target rest

/-- Store lookup over one flat run of listing entries (loop body of lines 55-59). -/
def findStoreInList (target : String) (l : List Store) : Option Store :=
  firstWithDisplayName Store.display_name target l

/-- Store lookup over the paginated listing
(`client.file_search_stores.list(config={'page_size': 10})`, lines 55-62): the
pager yields entries page by page and the loop scans them in that order. -/
def findStorePaged (target : String) : List (List Store) → Option Store
  | [] => none
  | page :: rest =>
    match findStoreInList target page with
    | some s => some s
    | none => findStorePaged target rest

/-- Document lookup inside a store (loop of lines 141-149): first document in
listing order whose display name equals the target. -/
def findDocumentInList (target : String) (l : List Document) : Option Document :=
  firstWithDisplayName Document.display_name target l

/-- Remote-service behaviour for one file upload: `submit` is the
`upload_to_file_search_store` call, which either raises synchronously
(`.error`) or returns an operation; `states k` is the operation state visible
after `k` `operations.get` re-queries (`states 0` is the operation returned by
the submission itself). -/
structure FileBehavior where
  submit : Except String (Nat → Operation)

/-- `while not operation.done: time.sleep(1); operation = client.operations.get(...)`
(lines 82-84 and 167-169).  The source loop has no bound, so the embedding is
fuel-indexed: `some (j, op)` when the operation first reports done after `j`
re-queries, reached within `fuel` loop iterations; `none` when the loop is
still running after `fuel` iterations. -/
def pollLoop (states : Nat → Operation) : Nat → Nat → Option (Nat × Operation)
  | 0, _ => none
  | fuel + 1, k =>
    if (states k).done then some (k, states k)
    else pollLoop states fuel (k + 1)

/-- Observable calls and waits performed by the script. -/
inductive Event
  | writeLocal (path content : String)
  | submitUpload (path : String)
  | deleteDocument (docName : String)
  | sleep (seconds : Nat)
  | getOperation
deriving DecidableEq, Repr

/-- Effect trace of the same poll loop: each iteration performs `time.sleep(1)`
followed by one `operations.get` re-query. -/
def pollLoopEvents (states : Nat → Operation) : Nat → Nat → List Event
  | 0, _ => []
  | fuel + 1, k =>
    if (states k).done then []
    else Event.sleep 1 :: Event.getOperation :: pollLoopEvents states fuel (k + 1)

/-- `n` poll iterations: sleep one time unit, re-query, repeated `n` times. -/
def sleepGetChain : Nat → List Event
  | 0 => []
  | n + 1 => Event.sleep 1 :: Event.getOperation :: sleepGetChain n

/-- `upload_file` (lines 70-87): submit the upload, then poll the operation to
completion and return it.  A synchronous submission exception propagates to the
future as `.error`; the returned operation is not inspected further by the
source.  `none` means the poll loop has not exited within `fuel` iterations. -/
def upload_file (beh : FileBehavior) (fuel : Nat) : Option (Except String Operation) :=
  match beh.submit with
  | .error e => some (.error e)
  | .ok states =>
    match pollLoop states fuel 0 with
    | some (_, op) => some (.ok op)
    | none => none

/-- Effect trace of `upload_file`: the submission call, then the poll loop. -/
def upload_file_events (path : String) (beh : FileBehavior) (fuel : Nat) : List Event :=
  match beh.submit with
  | .error _ => [Event.submitUpload path]
  | .ok states => Event.submitUpload path :: pollLoopEvents states fuel 0

/-- One directory entry of `os.listdir(docs_dir)`, with its `is_file()` status. -/
structure DirEntry where
  entryName : String
  isFile : Bool
deriving DecidableEq, Repr

/-- `files = [str(Path(docs_dir) / f) for f in os.listdir(docs_dir) if Path(docs_dir, f).is_file()]`
(line 90). -/
def listInputFiles (entries : List DirEntry) : List String :=
  entries.filterMap fun e =>
    if e.isFile then some (docs_dir ++ "/" ++ e.entryName) else none

/-- The futures submitted by the batch loop (line 94), one per input file in
submission order, paired with the terminal outcome each future computes. -/
def batchOutcomes (env : String → FileBehavior) (fuel : Nat) (files : List String) :
    List (String × Option (Except String Operation)) :=
  files.map fun f => (f, upload_file (env f) fuel)

/-- `as_completed(futures)` yields the futures in completion order, which is
arbitrary; `order` lists future indices in the order they complete. -/
def drainCompleted (outcomes : List (String × Option (Except String Operation)))
    (order : List Nat) : List (String × Option (Except String Operation)) :=
  order.filterMap fun i => outcomes[i]?

/-- The drain loop `for future in as_completed(futures): try: future.result()
except Exception as e: print(...)` (lines 95-99): every future is processed; a
raised per-file exception becomes a printed error line and the loop continues.
Returns (number of futures processed, printed error lines in order). -/
def drainLoop : List (String × Option (Except String Operation)) → Nat × List String
  | [] => (0, [])
  | (_, r) :: rest =>
    let acc := drainLoop rest
    match r with
    | some (.error e) => (acc.1 + 1, ("Error uploading file: " ++ e) :: acc.2)
    | _ => (acc.1 + 1, acc.2)

/-- Line 101: printed unconditionally after the drain loop finishes. -/
def finalBatchMessage : String := "All files uploaded successfully!"

/-- What the batch step prints after submitting: the error lines emitted inside
the drain loop, and the final status line (which the source prints regardless
of per-file failures). -/
def batchReport (outcomes : List (String × Option (Except String Operation))) :
    List String × String :=
  ((drainLoop outcomes).2, finalBatchMessage)

/-- All calls and waits of the batch step, per file in submission order. -/
def batchEvents (env : String → FileBehavior) (fuel : Nat) (files : List String) :
    List Event :=
  files.flatMap fun f => upload_file_events f (env f) fuel

/-- The remote behaviour of one file gives its future a terminal outcome: the
submission raises synchronously, or the operation eventually reports done. -/
def eventuallyTerminal (beh : FileBehavior) : Prop :=
  match beh.submit with
  | .error _ => True
  | .ok states => ∃ n, (states n).done = true

/-- The remote behaviour of one file is a failure: a synchronous submission
exception, or an operation that resolves with a failure reason set. -/
def behaviorFails (beh : FileBehavior) : Prop :=
  (∃ e, beh.submit = .error e) ∨
  (∃ states k, beh.submit = .ok states ∧ (states k).done = true ∧ (states k).reason.isSome)

/-- Python truthiness of `if not api_key` (line 31): `os.getenv` yields `none`
when the variable is absent, and an empty string is also falsy. -/
def apiKeyMissing : Option String → Bool
  | none => true
  | some s => s.isEmpty

/-- The exception message of line 32. -/
def apiKeyErrorMessage : String := "GOOGLE_API_KEY not found in .env file"

/-- The exception message of line 62. -/
def storeNotFoundMessage : String :=
  "Store with display name '" ++ file_store_name ++ "' not found."

/-- The remote-service calls the script can issue, for trace claims. -/
inductive RemoteCall
  | createStore
  | listStores
  | uploadToStore
  | getOperation
  | listDocuments
  | deleteDocument
  | deleteStore
  | generateContent
deriving DecidableEq, Repr

/-- Lines 30-62 of the script: read `GOOGLE_API_KEY` from the environment and
raise before the client is even constructed when it is missing (lines 30-32);
otherwise Step 1 creates the store (lines 45-47) and Step 2 scans the paginated
store listing for `file_store_name`, raising when no store matches (lines
54-62).  The second component is the trace of remote-service calls issued. -/
def scriptStartup (envKey : Option String) (listing : List (List Store)) :
    Except String Store × List RemoteCall :=
  if apiKeyMissing envKey then (.error apiKeyErrorMessage, [])
  else
    match findStorePaged file_store_name listing with
    | some s => (.ok s, [RemoteCall.createStore, RemoteCall.listStores])
    | none => (.error storeNotFoundMessage, [RemoteCall.createStore, RemoteCall.listStores])

/-- `doc1_display_name = 'doc1.txt'` (line 130). -/
def doc1_display_name : String := "doc1.txt"

/-- `updated_content` (line 129). -/
def updated_content : String := "Gemini is a sign Language developed in 2025 by Chaoran Zhou."

/-- `doc1_path = Path(docs_dir) / doc1_display_name` (line 131). -/
def doc1_path : String := docs_dir ++ "/" ++ doc1_display_name

/-- The message of the exception raised at line 152. -/
def docNotFoundMessage : String :=
  "Document with display name '" ++ doc1_display_name ++ "' not found."

/-- Step 5 of the script (lines 128-171): write `updated_content` to the local
file `docs/doc1.txt` (lines 134-135), then scan the store's document listing
and delete the first document whose display name is `doc1.txt`, setting
`file_deleted` and breaking (lines 140-149); raise when no document matched
(lines 151-152); otherwise reupload the local file and poll the upload
operation to completion (lines 159-169).

`docs` is the store's document listing, `deleteResult` the outcome of the SDK
delete call (an `.error` models the call raising), `states` the reupload
operation's state stream.  Result: `some (.ok op)` on success, `some (.error m)`
when the script raises, `none` when the final poll loop is still running after
`fuel` iterations; paired with the trace of local writes and remote calls. -/
def updateViaReplace (docs : List Document) (deleteResult : Except String Unit)
    (states : Nat → Operation) (fuel : Nat) :
    Option (Except String Operation) × List Event :=
  let wrote : List Event := [Event.writeLocal doc1_path updated_content]
  match findDocumentInList doc1_display_name docs with
  | none => (some (.error docNotFoundMessage), wrote)
  | some d =>
    match deleteResult with
    | .error e => (some (.error e), wrote ++ [Event.deleteDocument d.name])
    | .ok _ =>
      let tr := wrote ++ [Event.deleteDocument d.name, Event.submitUpload doc1_path] ++
        pollLoopEvents states fuel 0
      match pollLoop states fuel 0 with
      | some (_, op) => (some (.ok op), tr)
      | none => (none, tr)

/-- A trace event is a `documents.delete` call. -/
def isDeleteCall : Event → Bool
  | Event.deleteDocument _ => true
  | _ => false

/-- A trace event is an `upload_to_file_search_store` call. -/
def isUploadCall : Event → Bool
  | Event.submitUpload _ => true
  | _ => false

/-- Modelled from the spec: the executor of `with ThreadPoolExecutor(max_workers=5)`
(line 93) is Python standard-library code absent from this repository.  The
spec describes it as a fixed-capacity worker pool: at most `max_workers`
submitted tasks are active at once, the remainder queue until a worker frees.
Tasks are identified by their index in the submission list. -/
structure PoolState where
  queued : List Nat
  running : List Nat
  finished : List Nat
deriving DecidableEq, Repr

/-- The worker bound of line 93: `ThreadPoolExecutor(max_workers=5)`. -/
def max_workers : Nat := 5

/-- Modelled from the spec: one scheduler step of the bounded worker pool.  A
queued task may start only when fewer than `m` tasks are running; a running
task may finish at any time, in any order. -/
inductive PoolStep (m : Nat) : PoolState → PoolState → Prop
  | start (t : Nat) (q r d : List Nat) (h : r.length < m) :
      PoolStep m ⟨t :: q, r, d⟩ ⟨q, t :: r, d⟩
  | finish (t : Nat) (q r d : List Nat) (h : t ∈ r) :
      PoolStep m ⟨q, r, d⟩ ⟨q, r.erase t, t :: d⟩

/-- The pool right after line 94 submits one task per input file: all tasks
queued, none running, none finished. -/
def initPool (files : List String) : PoolState :=
  ⟨List.range files.length, [], []⟩

/-- States the pool can reach from `s₀` by scheduler steps. -/
inductive PoolReach (m : Nat) (s₀ : PoolState) : PoolState → Prop
  | refl : PoolReach m s₀ s₀
  | tail {s t : PoolState} : PoolReach m s₀ s → PoolStep m s t → PoolReach m s₀ t

/-- Enlarging the fuel of an exited poll loop does not change its result. -/
theorem pollLoop_mono (states : Nat → Operation) :
    ∀ {fuel fuel' k r}, fuel ≤ fuel' → pollLoop states fuel k = some r →
      pollLoop states fuel' k = some r := by
  intro fuel
  induction fuel with
  | zero => intro _ _ _ _ h; simp [pollLoop] at h
  | succ n ih =>
    intro fuel' k r hle h
    obtain ⟨m, rfl⟩ : ∃ m, fuel' = m + 1 := ⟨fuel' - 1, by omega⟩
    rw [pollLoop] at h ⊢
    by_cases hd : (states k).done
    · simpa [hd] using h
    · simp only [hd, if_false] at h ⊢
      exact ih (by omega) h

/-- When the poll loop exits it returns the operation at the first done index. -/
theorem pollLoop_sound (states : Nat → Operation) :
    ∀ {fuel k j op}, pollLoop states fuel k = some (j, op) →
      op = states j ∧ (states j).done = true ∧ k ≤ j ∧
        ∀ i, k ≤ i → i < j → (states i).done = false := by
  intro fuel
  induction fuel with
  | zero => intro _ _ _ h; simp [pollLoop] at h
  | succ n ih =>
    intro k j op h
    rw [pollLoop] at h
    by_cases hd : (states k).done
    · simp only [hd, if_true] at h
      obtain ⟨rfl, rfl⟩ : k = j ∧ states k = op := by
        refine ⟨?_, ?_⟩ <;> cases h <;> rfl
      exact ⟨rfl, hd, le_refl _, fun i h₁ h₂ => absurd (lt_of_le_of_lt h₁ h₂) (lt_irrefl _)⟩
    · simp only [hd, if_false] at h
      obtain ⟨rfl, hdone, hk, hall⟩ := ih h
      refine ⟨rfl, hdone, by omega, fun i h₁ h₂ => ?_⟩
      rcases Nat.eq_or_lt_of_le h₁ with rfl | hlt
      · exact eq_false_of_ne_true hd
      · exact hall i hlt h₂

/-- If the operation reports done at index `k + n`, fuel `n + 1` suffices. -/
theorem pollLoop_complete (states : Nat → Operation) :
    ∀ n k, (states (k + n)).done = true → (pollLoop states (n + 1) k).isSome := by
  intro n
  induction n with
  | zero => intro k h; simp only [Nat.add_zero] at h; simp [pollLoop, h]
  | succ m ih =>
    intro k h
    rw [pollLoop]
    by_cases hd : (states k).done
    · simp [hd]
    · simp only [hd, if_false]
      exact ih (k + 1) (by rw [show k + 1 + m = k + (m + 1) by omega]; exact h)

/-- An operation that never reports done keeps the poll loop running at any fuel. -/
theorem pollLoop_none_of_never (states : Nat → Operation)
    (h : ∀ n, (states n).done = false) : ∀ fuel k, pollLoop states fuel k = none := by
  intro fuel
  induction fuel with
  | zero => intro k; rfl
  | succ n ih => intro k; rw [pollLoop]; simp only [h k, if_false]; exact ih (k + 1)

/-- The effect trace of an exited poll loop is `j - k` sleep-one-then-re-query
iterations. -/
theorem pollLoopEvents_eq_chain (states : Nat → Operation) :
    ∀ {fuel k j op}, pollLoop states fuel k = some (j, op) →
      pollLoopEvents states fuel k = sleepGetChain (j - k) := by
  intro fuel
  induction fuel with
  | zero => intro _ _ _ h; simp [pollLoop] at h
  | succ n ih =>
    intro k j op h
    rw [pollLoop] at h
    rw [pollLoopEvents]
    by_cases hd : (states k).done = true
    · rw [if_pos hd] at h
      have hkj : k = j := by cases h; rfl
      subst hkj
      rw [if_pos hd, Nat.sub_self]
      rfl
    · rw [if_neg hd] at h
      have hlt : k < j := by
        obtain ⟨-, -, hk, -⟩ := pollLoop_sound states h
        omega
      rw [if_neg hd, ih h, show j - k = (j - (k + 1)) + 1 by omega, sleepGetChain]

/-- Only unit sleeps and re-queries occur in a poll chain. -/
theorem mem_sleepGetChain :
    ∀ n e, e ∈ sleepGetChain n → e = Event.sleep 1 ∨ e = Event.getOperation := by
  intro n
  induction n with
  | zero => intro e h; simp [sleepGetChain] at h
  | succ m ih =>
    intro e h
    rw [sleepGetChain] at h
    rcases List.mem_cons.mp h with rfl | h
    · exact Or.inl rfl
    rcases List.mem_cons.mp h with rfl | h
    · exact Or.inr rfl
    · exact ih e h

/-- Whatever the fuel, the poll loop only sleeps one unit and re-queries. -/
theorem mem_pollLoopEvents (states : Nat → Operation) :
    ∀ fuel k e, e ∈ pollLoopEvents states fuel k →
      e = Event.sleep 1 ∨ e = Event.getOperation := by
  intro fuel
  induction fuel with
  | zero => intro k e h; simp [pollLoopEvents] at h
  | succ n ih =>
    intro k e h
    rw [pollLoopEvents] at h
    by_cases hd : (states k).done = true
    · rw [if_pos hd] at h
      simp at h
    · rw [if_neg hd] at h
      rcases List.mem_cons.mp h with rfl | h
      · exact Or.inl rfl
      rcases List.mem_cons.mp h with rfl | h
      · exact Or.inr rfl
      · exact ih (k + 1) e h

/-- Enlarging the fuel of a finished upload does not change its outcome. -/
theorem upload_file_mono (beh : FileBehavior) {fuel fuel' : Nat} (hle : fuel ≤ fuel')
    {r} (h : upload_file beh fuel = some r) : upload_file beh fuel' = some r := by
  cases hs : beh.submit with
  | error e => simp only [upload_file, hs] at h ⊢; exact h
  | ok states =>
    simp only [upload_file, hs] at h ⊢
    cases hp : pollLoop states fuel 0 with
    | none => rw [hp] at h; simp at h
    | some v =>
      obtain ⟨j, op⟩ := v
      rw [hp] at h
      rw [pollLoop_mono states hle hp]
      exact h

/-- A file whose remote behaviour is terminal gets an outcome at some fuel. -/
theorem upload_file_terminal (beh : FileBehavior) (h : eventuallyTerminal beh) :
    ∃ fuel, (upload_file beh fuel).isSome := by
  cases hs : beh.submit with
  | error e => exact ⟨0, by simp [upload_file, hs]⟩
  | ok states =>
    simp only [eventuallyTerminal, hs] at h
    obtain ⟨n, hn⟩ := h
    have hsome := pollLoop_complete states n 0 (by simpa using hn)
    rw [Option.isSome_iff_exists] at hsome
    obtain ⟨⟨j, op⟩, hj⟩ := hsome
    exact ⟨n + 1, by simp [upload_file, hs, hj]⟩

/-- A single fuel large enough for all files of the batch at once. -/
theorem exists_fuel_all (env : String → FileBehavior) (files : List String)
    (h : ∀ f ∈ files, eventuallyTerminal (env f)) :
    ∃ fuel, ∀ f ∈ files, (upload_file (env f) fuel).isSome := by
  induction files with
  | nil => exact ⟨0, by simp⟩
  | cons a t ih =>
    obtain ⟨fuel₁, h₁⟩ := upload_file_terminal (env a) (h a (List.mem_cons_self a t))
    obtain ⟨fuel₂, h₂⟩ := ih fun f hf => h f (List.mem_cons_of_mem a hf)
    refine ⟨max fuel₁ fuel₂, fun f hf => ?_⟩
    rcases List.mem_cons.mp hf with rfl | hf
    · obtain ⟨r, hr⟩ := Option.isSome_iff_exists.mp h₁
      exact Option.isSome_iff_exists.mpr ⟨r, upload_file_mono _ (le_max_left _ _) hr⟩
    · obtain ⟨r, hr⟩ := Option.isSome_iff_exists.mp (h₂ f hf)
      exact Option.isSome_iff_exists.mpr ⟨r, upload_file_mono _ (le_max_right _ _) hr⟩

/-- Reading every index of a list back in order reproduces the list. -/
theorem filterMap_getElem_range {α : Type} (l : List α) :
    (List.range l.length).filterMap (fun i => l[i]?) = l := by
  induction l with
  | nil => simp
  | cons a t ih =>
    rw [List.length_cons, List.range_succ_eq_map, List.filterMap_cons]
    simp only [List.getElem?_cons_zero, List.filterMap_map]
    have hfun : ((fun i => (a :: t)[i]?) ∘ Nat.succ) = fun i => t[i]? := by
      funext i
      simp
    rw [hfun, ih]

/-- Draining in any completion order yields a permutation of the futures. -/
theorem drainCompleted_perm (outcomes : List (String × Option (Except String Operation)))
    (order : List Nat) (h : order.Perm (List.range outcomes.length)) :
    (drainCompleted outcomes order).Perm outcomes := by
  have h2 := h.filterMap fun i => outcomes[i]?
  rwa [filterMap_getElem_range] at h2

/-- The drain loop processes every future, failures included. -/
theorem drainLoop_count (outcomes : List (String × Option (Except String Operation))) :
    (drainLoop outcomes).1 = outcomes.length := by
  induction outcomes with
  | nil => rfl
  | cons p t ih =>
    obtain ⟨f, r⟩ := p
    rcases r with - | r
    · simp [drainLoop, ih]
    · rcases r with e | op
      · simp [drainLoop, ih]
      · simp [drainLoop, ih]

/-- A future that raised leaves its printed error line in the drain log. -/
theorem drainLoop_log_mem (outcomes : List (String × Option (Except String Operation)))
    (f e) (h : (f, some (Except.error e)) ∈ outcomes) :
    ("Error uploading file: " ++ e) ∈ (drainLoop outcomes).2 := by
  induction outcomes with
  | nil => simp at h
  | cons p t ih =>
    obtain ⟨g, r⟩ := p
    rcases List.mem_cons.mp h with heq | hmem
    · obtain ⟨rfl, rfl⟩ := (Prod.mk.injEq ..).mp heq
      exact List.mem_cons_self _ _
    · have hin := ih hmem
      rcases r with - | r
      · exact hin
      · rcases r with e₂ | op
        · exact List.mem_cons_of_mem _ hin
        · exact hin

/-- Exhausted scan: no entry has the target display name. -/
theorem firstWithDisplayName_none {α : Type} (dn : α → String) (t : String) :
    ∀ l : List α, firstWithDisplayName dn t l = none ↔ ∀ x ∈ l, dn x ≠ t := by
  intro l
  induction l with
  | nil => simp [firstWithDisplayName]
  | cons a rest ih =>
    rw [firstWithDisplayName]
    by_cases hd : dn a == t
    · rw [if_pos hd]
      constructor
      · intro h; exact absurd h (by simp)
      · intro h; exact absurd (eq_of_beq hd) (h a (List.mem_cons_self a rest))
    · rw [if_neg hd, ih]
      constructor
      · intro h x hx
        rcases List.mem_cons.mp hx with rfl | hx
        · exact fun he => hd (beq_iff_eq.mpr he)
        · exact h x hx
      · intro h x hx; exact h x (List.mem_cons_of_mem a hx)

/-- A successful scan returns a matching entry, and it is the first match:
everything listed before it has a different display name. -/
theorem firstWithDisplayName_some {α : Type} (dn : α → String) (t : String) :
    ∀ {l : List α} {x}, firstWithDisplayName dn t l = some x →
      dn x = t ∧ ∃ l₁ l₂, l = l₁ ++ x :: l₂ ∧ ∀ y ∈ l₁, dn y ≠ t := by
  intro l
  induction l with
  | nil => intro x h; simp [firstWithDisplayName] at h
  | cons a rest ih =>
    intro x h
    rw [firstWithDisplayName] at h
    by_cases hd : dn a == t
    · simp only [hd, if_true] at h
      have hax : a = x := by cases h; rfl
      subst hax
      exact ⟨eq_of_beq hd, [], rest, rfl, by simp⟩
    · simp only [hd, if_false] at h
      obtain ⟨hx, l₁, l₂, rfl, hall⟩ := ih h
      refine ⟨hx, a :: l₁, l₂, rfl, fun y hy => ?_⟩
      rcases List.mem_cons.mp hy with rfl | hy
      · exact fun he => absurd (beq_iff_eq.mpr he) (by simp [hd])
      · exact hall y hy

/-- The scan succeeds exactly when some entry has the target display name. -/
theorem firstWithDisplayName_isSome {α : Type} (dn : α → String) (t : String)
    (l : List α) : (firstWithDisplayName dn t l).isSome ↔ ∃ x ∈ l, dn x = t := by
  cases hf : firstWithDisplayName dn t l with
  | none =>
    simp only [Option.isSome_none, Bool.false_eq_true, false_iff]
    rw [firstWithDisplayName_none] at hf
    push_neg
    exact hf
  | some x =>
    simp only [Option.isSome_some, true_iff]
    obtain ⟨hx, l₁, l₂, rfl, -⟩ := firstWithDisplayName_some dn t hf
    exact ⟨x, by simp, hx⟩

/-- The scan of a concatenation tries the first run, then the second. -/
theorem firstWithDisplayName_append {α : Type} (dn : α → String) (t : String) :
    ∀ l₁ l₂ : List α, firstWithDisplayName dn t (l₁ ++ l₂) =
      match firstWithDisplayName dn t l₁ with
      | some x => some x
      | none => firstWithDisplayName dn t l₂ := by
  intro l₁ l₂
  induction l₁ with
  | nil => rfl
  | cons a rest ih =>
    rw [List.cons_append, firstWithDisplayName, firstWithDisplayName]
    by_cases hd : dn a == t
    · simp only [hd, if_true]
    · simp only [hd, if_false]
      exact ih

/-- Scanning the pages in order is scanning the concatenated listing. -/
theorem findStorePaged_eq_flatten (t : String) :
    ∀ pages : List (List Store), findStorePaged t pages = findStoreInList t pages.flatten := by
  intro pages
  induction pages with
  | nil => rfl
  | cons page rest ih =>
    rw [findStorePaged, List.flatten_cons]
    unfold findStoreInList
    rw [firstWithDisplayName_append]
    unfold findStoreInList at ih
    cases hp : firstWithDisplayName Store.display_name t page with
    | some s => rfl
    | none => exact ih

/-- The worker bound is an invariant of the pool scheduler. -/
theorem poolReach_running_le {m : Nat} {s₀ s : PoolState}
    (h₀ : s₀.running.length ≤ m) (h : PoolReach m s₀ s) : s.running.length ≤ m := by
  induction h with
  | refl => exact h₀
  | tail _ st ih =>
    cases st with
    | start t q r d hlt => simpa using hlt
    | finish t q r d hmem => exact le_trans (List.erase_sublist t r).length_le ih

/-- Only a `start` step dequeues, and it requires a free worker slot. -/
theorem poolStep_dequeue {m t : Nat} {q r d : List Nat} {s' : PoolState}
    (h : PoolStep m ⟨t :: q, r, d⟩ s') (hq : s'.queued = q) : r.length < m := by
  cases h with
  | start t' q' r' d' hlt => exact hlt
  | finish t' q' r' d' hmem => exact absurd hq (List.cons_ne_self t q)

/-- Update step, no document matched: the script raises the not-found error
and its trace is just the local write. -/
theorem updateViaReplace_trace_none (docs : List Document)
    (deleteResult : Except String Unit) (states : Nat → Operation) (fuel : Nat)
    (hfind : findDocumentInList doc1_display_name docs = none) :
    updateViaReplace docs deleteResult states fuel =
      (some (Except.error docNotFoundMessage),
       [Event.writeLocal doc1_path updated_content]) := by
  simp [updateViaReplace, hfind]

/-- Update step, document matched but the delete call raised: the exception
propagates and the trace is the local write followed by the delete call. -/
theorem updateViaReplace_trace_delete_error (docs : List Document) (d : Document)
    (e₀ : String) (states : Nat → Operation) (fuel : Nat)
    (hfind : findDocumentInList doc1_display_name docs = some d) :
    updateViaReplace docs (.error e₀) states fuel =
      (some (Except.error e₀),
       [Event.writeLocal doc1_path updated_content, Event.deleteDocument d.name]) := by
  simp [updateViaReplace, hfind]

/-- Update step, document matched and delete succeeded: the trace is the local
write, the delete call, the reupload submission, then the poll loop. -/
theorem updateViaReplace_trace_ok (docs : List Document) (d : Document)
    (states : Nat → Operation) (fuel : Nat)
    (hfind : findDocumentInList doc1_display_name docs = some d) :
    (updateViaReplace docs (.ok ()) states fuel).2 =
      Event.writeLocal doc1_path updated_content :: Event.deleteDocument d.name ::
        Event.submitUpload doc1_path :: pollLoopEvents states fuel 0 := by
  cases hp : pollLoop states fuel 0 with
  | some v =>
    obtain ⟨j, op⟩ := v
    simp [updateViaReplace, hfind, hp]
  | none => simp [updateViaReplace, hfind, hp]

/-- C5: at every point during a batch ingestion the number of simultaneously
in-flight upload-and-poll sequences never exceeds the configured worker bound
`max_workers` (5 in the source, line 93), and a task leaves the queue only when
a worker slot is free, so files beyond the bound queue until a slot frees. -/
theorem ingestion_concurrency_bounded (files : List String) (s : PoolState)
    (h : PoolReach max_workers (initPool files) s) :
    s.running.length ≤ max_workers ∧ max_workers = 5 ∧
      ∀ (t : Nat) (q r d : List Nat) (s' : PoolState),
        PoolStep max_workers ⟨t :: q, r, d⟩ s' → s'.queued = q →
          r.length < max_workers := by
  refine ⟨poolReach_running_le ?_ h, rfl,
    fun t q r d s' hst hq => poolStep_dequeue hst hq⟩
  simp [initPool]

/-- Witness for C5: the freshly submitted three-file pool is reachable and
satisfies the bound. -/
theorem ingestion_concurrency_bounded_witness :
    (initPool ["docs/a.txt", "docs/b.txt", "docs/c.txt"]).running.length ≤ max_workers ∧
      max_workers = 5 ∧
      ∀ (t : Nat) (q r d : List Nat) (s' : PoolState),
        PoolStep max_workers ⟨t :: q, r, d⟩ s' → s'.queued = q →
          r.length < max_workers :=
  ingestion_concurrency_bounded ["docs/a.txt", "docs/b.txt", "docs/c.txt"] _ PoolReach.refl

/-- C6: for each submitted upload Operation the poll loop sleeps a fixed one
time unit before each status re-query and terminates exactly when the operation
reports done (its result is the first done state, all earlier states were not
done); if the operation eventually reports completion the loop exits at some
fuel, and since no timeout bounds the loop, an operation that never completes
keeps the loop running at every fuel — the owning worker waits forever. -/
theorem poll_loop_fixed_interval_terminates (states : Nat → Operation) :
    (∀ fuel j op, pollLoop states fuel 0 = some (j, op) →
        op = states j ∧ (states j).done = true ∧
          (∀ i, i < j → (states i).done = false) ∧
          pollLoopEvents states fuel 0 = sleepGetChain j ∧
          ∀ d, Event.sleep d ∈ pollLoopEvents states fuel 0 → d = 1) ∧
    ((∃ n, (states n).done = true) → ∃ fuel j op, pollLoop states fuel 0 = some (j, op)) ∧
    ((∀ n, (states n).done = false) → ∀ fuel, pollLoop states fuel 0 = none) := by
  refine ⟨fun fuel j op h => ?_, fun hev => ?_,
    fun hnever fuel => pollLoop_none_of_never states hnever fuel 0⟩
  · obtain ⟨h1, h2, -, h4⟩ := pollLoop_sound states h
    have hch := pollLoopEvents_eq_chain states h
    rw [Nat.sub_zero] at hch
    refine ⟨h1, h2, fun i hi => h4 i (Nat.zero_le i) hi, hch, fun d hd => ?_⟩
    rw [hch] at hd
    rcases mem_sleepGetChain j _ hd with hs | hs
    · injection hs
    · exact absurd hs (by simp)
  · obtain ⟨n, hn⟩ := hev
    have hsome := pollLoop_complete states n 0 (by simpa using hn)
    rw [Option.isSome_iff_exists] at hsome
    obtain ⟨⟨j, op⟩, hj⟩ := hsome
    exact ⟨n + 1, j, op, hj⟩

/-- Witness for C6: an operation done after two re-queries makes the poll loop
exit at some fuel. -/
theorem poll_loop_fixed_interval_terminates_witness :
    ∃ fuel j op,
      pollLoop (fun k => Operation.mk (decide (2 ≤ k)) none none) fuel 0 = some (j, op) :=
  (poll_loop_fixed_interval_terminates
    (fun k => Operation.mk (decide (2 ≤ k)) none none)).2.1 ⟨2, by decide⟩

/-- C7: with the API credential absent from the process environment, the script
fails immediately at its initialization check (lines 30-32) with the
descriptive message of line 32, and no remote-service call has been issued. -/
theorem missing_api_key_fails_fast (listing : List (List Store)) :
    scriptStartup none listing = (Except.error apiKeyErrorMessage, []) ∧
      apiKeyErrorMessage = "GOOGLE_API_KEY not found in .env file" :=
  ⟨rfl, rfl⟩

/-- A remote behaviour whose upload succeeds immediately, for witnesses. -/
def happyBehavior : FileBehavior :=
  ⟨Except.ok fun _ => ⟨true, some ⟨"documents/d", "a.txt"⟩, none⟩⟩

/-- The stub of the spec scenario: `docs/b.txt` fails submission, the other
files upload fine. -/
def scenarioEnv : String → FileBehavior :=
  fun f => if f = "docs/b.txt" then ⟨Except.error "boom"⟩ else happyBehavior

/-- C1: for every non-empty sequence of input files whose remote operations
reach completion, the driver produces exactly one terminal outcome per input
file regardless of the order completions arrive in: at some fuel, draining the
futures in any completion order is a permutation of the per-file outcomes (its
first components are a permutation of the input files) and every collected
outcome is settled. -/
theorem ingestion_one_outcome_per_file
    (env : String → FileBehavior) (files : List String) (order : List Nat)
    (hne : files ≠ [])
    (hterm : ∀ f ∈ files, eventuallyTerminal (env f))
    (horder : order.Perm (List.range files.length)) :
    ∃ fuel,
      (drainCompleted (batchOutcomes env fuel files) order).Perm
        (files.map fun f => (f, upload_file (env f) fuel)) ∧
      ((drainCompleted (batchOutcomes env fuel files) order).map Prod.fst).Perm files ∧
      ∀ p ∈ drainCompleted (batchOutcomes env fuel files) order, p.2.isSome := by
  obtain ⟨fuel, hall⟩ := exists_fuel_all env files hterm
  have hlen : (batchOutcomes env fuel files).length = files.length := by
    simp [batchOutcomes]
  have hperm : (drainCompleted (batchOutcomes env fuel files) order).Perm
      (batchOutcomes env fuel files) :=
    drainCompleted_perm _ order (by rwa [hlen])
  refine ⟨fuel, hperm, ?_, ?_⟩
  · have hmap := hperm.map Prod.fst
    have h2 : (batchOutcomes env fuel files).map Prod.fst = files := by
      simp [batchOutcomes, Function.comp_def]
    rwa [h2] at hmap
  · intro p hp
    have hmem := hperm.mem_iff.mp hp
    rw [batchOutcomes] at hmem
    obtain ⟨f, hf, rfl⟩ := List.mem_map.mp hmem
    exact hall f hf

/-- Witness for C1: a one-file batch against an immediately successful remote,
drained in the only completion order. -/
theorem ingestion_one_outcome_per_file_witness :
    ∃ fuel,
      (drainCompleted (batchOutcomes (fun _ => happyBehavior) fuel ["docs/a.txt"]) [0]).Perm
        (["docs/a.txt"].map fun f => (f, upload_file ((fun _ => happyBehavior) f) fuel)) ∧
      ((drainCompleted (batchOutcomes (fun _ => happyBehavior) fuel ["docs/a.txt"])
          [0]).map Prod.fst).Perm ["docs/a.txt"] ∧
      ∀ p ∈ drainCompleted (batchOutcomes (fun _ => happyBehavior) fuel ["docs/a.txt"]) [0],
        p.2.isSome :=
  ingestion_one_outcome_per_file (fun _ => happyBehavior) ["docs/a.txt"] [0]
    (by simp) (fun _ _ => ⟨0, rfl⟩) (by decide)

/-- C2: if one file's upload fails — a synchronous submission exception or an
operation resolving to failure — every file of the batch still reaches its own
terminal outcome at some fuel: the drain loop processes all futures (no
cross-file cancellation), every sibling's outcome is exactly what its own
remote behaviour dictates independently of the failing file, and a submission
exception is reported as an error line while the loop keeps draining. -/
theorem per_file_failure_isolated
    (env env' : String → FileBehavior) (files : List String) (b : String)
    (hfail : behaviorFails (env b))
    (hagree : ∀ f, f ≠ b → env' f = env f)
    (hterm : ∀ f ∈ files, f ≠ b → eventuallyTerminal (env f)) :
    ∃ fuel,
      (∀ f ∈ files, (upload_file (env f) fuel).isSome) ∧
      (drainLoop (batchOutcomes env fuel files)).1 = files.length ∧
      (∀ f, f ≠ b → upload_file (env f) fuel = upload_file (env' f) fuel) ∧
      (∀ e, (env b).submit = Except.error e → b ∈ files →
        ("Error uploading file: " ++ e) ∈ (drainLoop (batchOutcomes env fuel files)).2) := by
  have hbterm : eventuallyTerminal (env b) := by
    rcases hfail with ⟨e, he⟩ | ⟨states, k, hs, hd, -⟩
    · simp only [eventuallyTerminal, he]
    · simp only [eventuallyTerminal, hs]
      exact ⟨k, hd⟩
  have hterm' : ∀ f ∈ files, eventuallyTerminal (env f) := by
    intro f hf
    by_cases hfb : f = b
    · subst hfb; exact hbterm
    · exact hterm f hf hfb
  obtain ⟨fuel, hall⟩ := exists_fuel_all env files hterm'
  refine ⟨fuel, hall, ?_, ?_, ?_⟩
  · rw [drainLoop_count]
    simp [batchOutcomes]
  · intro f hfb
    rw [hagree f hfb]
  · intro e he hb
    apply drainLoop_log_mem _ b e
    rw [batchOutcomes]
    refine List.mem_map.mpr ⟨b, hb, ?_⟩
    simp [upload_file, he]

/-- Witness for C2: the spec scenario — three files, `docs/b.txt` configured to
fail submission, the others succeeding. -/
theorem per_file_failure_isolated_witness :
    ∃ fuel,
      (∀ f ∈ ["docs/a.txt", "docs/b.txt", "docs/c.txt"],
        (upload_file (scenarioEnv f) fuel).isSome) ∧
      (drainLoop (batchOutcomes scenarioEnv fuel
        ["docs/a.txt", "docs/b.txt", "docs/c.txt"])).1 = 3 ∧
      (∀ f, f ≠ "docs/b.txt" →
        upload_file (scenarioEnv f) fuel = upload_file (scenarioEnv f) fuel) ∧
      (∀ e, (scenarioEnv "docs/b.txt").submit = Except.error e →
        "docs/b.txt" ∈ ["docs/a.txt", "docs/b.txt", "docs/c.txt"] →
        ("Error uploading file: " ++ e) ∈ (drainLoop (batchOutcomes scenarioEnv fuel
          ["docs/a.txt", "docs/b.txt", "docs/c.txt"])).2) :=
  per_file_failure_isolated scenarioEnv scenarioEnv
    ["docs/a.txt", "docs/b.txt", "docs/c.txt"] "docs/b.txt"
    (Or.inl ⟨"boom", rfl⟩)
    (fun _ _ => rfl)
    (by
      intro f hf hfb
      rcases List.mem_cons.mp hf with rfl | hf
      · exact ⟨0, rfl⟩
      rcases List.mem_cons.mp hf with rfl | hf
      · exact absurd rfl hfb
      rcases List.mem_cons.mp hf with rfl | hf
      · exact ⟨0, rfl⟩
      · exact absurd hf (List.not_mem_nil f))

/-- C8: after the drain loop the driver reports overall success
unconditionally: even when some file's upload raised an exception, the final
status line is still `All files uploaded successfully!` and the failure is
surfaced only as a logged error line. -/
theorem final_message_unconditional
    (env : String → FileBehavior) (fuel : Nat) (files : List String)
    (f e : String) (hf : f ∈ files)
    (he : upload_file (env f) fuel = some (Except.error e)) :
    (batchReport (batchOutcomes env fuel files)).2 = "All files uploaded successfully!" ∧
      ("Error uploading file: " ++ e) ∈ (batchReport (batchOutcomes env fuel files)).1 := by
  refine ⟨rfl, ?_⟩
  apply drainLoop_log_mem _ f e
  rw [batchOutcomes]
  exact List.mem_map.mpr ⟨f, hf, by rw [he]⟩

/-- Witness for C8: a one-file batch whose only upload raises still ends with
the success line. -/
theorem final_message_unconditional_witness :
    (batchReport (batchOutcomes (fun _ => ⟨Except.error "boom"⟩) 0 ["docs/b.txt"])).2 =
        "All files uploaded successfully!" ∧
      ("Error uploading file: " ++ "boom") ∈
        (batchReport (batchOutcomes (fun _ => ⟨Except.error "boom"⟩) 0 ["docs/b.txt"])).1 :=
  final_message_unconditional (fun _ => ⟨Except.error "boom"⟩) 0 ["docs/b.txt"]
    "docs/b.txt" "boom" (List.mem_singleton.mpr rfl) rfl

/-- C10: when the input directory holds no regular files, the listing is empty,
the driver issues zero upload submissions and zero polls, and the batch
terminates normally with an empty outcome set (and still prints the final
message). -/
theorem empty_directory_empty_batch
    (entries : List DirEntry) (env : String → FileBehavior) (fuel : Nat)
    (h : ∀ en ∈ entries, en.isFile = false) :
    listInputFiles entries = [] ∧
      batchOutcomes env fuel (listInputFiles entries) = [] ∧
      batchEvents env fuel (listInputFiles entries) = [] ∧
      drainLoop (batchOutcomes env fuel (listInputFiles entries)) = (0, []) ∧
      (batchReport (batchOutcomes env fuel (listInputFiles entries))).2 = finalBatchMessage := by
  have hempty : listInputFiles entries = [] := by
    rw [listInputFiles, List.filterMap_eq_nil_iff]
    intro en hen
    simp [h en hen]
  rw [hempty]
  exact ⟨rfl, rfl, rfl, rfl, rfl⟩

/-- Witness for C10: a directory containing only a subdirectory entry. -/
theorem empty_directory_empty_batch_witness :
    listInputFiles [⟨"subdir", false⟩] = [] ∧
      batchOutcomes (fun _ => happyBehavior) 0 (listInputFiles [⟨"subdir", false⟩]) = [] ∧
      batchEvents (fun _ => happyBehavior) 0 (listInputFiles [⟨"subdir", false⟩]) = [] ∧
      drainLoop (batchOutcomes (fun _ => happyBehavior) 0
        (listInputFiles [⟨"subdir", false⟩])) = (0, []) ∧
      (batchReport (batchOutcomes (fun _ => happyBehavior) 0
        (listInputFiles [⟨"subdir", false⟩]))).2 = finalBatchMessage :=
  empty_directory_empty_batch [⟨"subdir", false⟩] (fun _ => happyBehavior) 0
    (by
      intro en hen
      rw [List.mem_singleton] at hen
      subst hen
      rfl)

/-- C3: in the update-via-replace step, every reupload call in the trace is
strictly preceded by a delete call; when a document with the target display
name exists, a delete call is issued (at position 1, right after the local
write, before any upload); and when no document matches, the step fails
terminally with the not-found error having issued no delete and no upload
call. -/
theorem update_replace_ordering (docs : List Document)
    (deleteResult : Except String Unit) (states : Nat → Operation) (fuel : Nat) :
    (∀ (j : Nat) (p : String),
      (updateViaReplace docs deleteResult states fuel).2[j]? =
        some (Event.submitUpload p) →
      ∃ (i : Nat) (n : String),
        i < j ∧ (updateViaReplace docs deleteResult states fuel).2[i]? =
          some (Event.deleteDocument n)) ∧
    ((∃ d ∈ docs, d.display_name = doc1_display_name) →
      ∃ n, (updateViaReplace docs deleteResult states fuel).2[1]? =
        some (Event.deleteDocument n)) ∧
    ((∀ d ∈ docs, d.display_name ≠ doc1_display_name) →
      (updateViaReplace docs deleteResult states fuel).1 =
          some (Except.error docNotFoundMessage) ∧
        ∀ e ∈ (updateViaReplace docs deleteResult states fuel).2,
          isDeleteCall e = false ∧ isUploadCall e = false) := by
  cases hfind : findDocumentInList doc1_display_name docs with
  | none =>
    rw [updateViaReplace_trace_none docs deleteResult states fuel hfind]
    refine ⟨?_, ?_, ?_⟩
    · intro j p hj
      rcases j with _ | j <;> simp at hj
    · intro hex
      obtain ⟨d, hd, hdn⟩ := hex
      rw [findDocumentInList, firstWithDisplayName_none] at hfind
      exact absurd hdn (hfind d hd)
    · intro hall
      refine ⟨rfl, ?_⟩
      intro e he
      rw [List.mem_singleton] at he
      subst he
      exact ⟨rfl, rfl⟩
  | some d =>
    have hd_mem : d.display_name = doc1_display_name ∧ d ∈ docs := by
      rw [findDocumentInList] at hfind
      obtain ⟨hdn, l₁, l₂, rfl, -⟩ := firstWithDisplayName_some _ _ hfind
      exact ⟨hdn, by simp⟩
    cases deleteResult with
    | error e₀ =>
      rw [updateViaReplace_trace_delete_error docs d e₀ states fuel hfind]
      refine ⟨?_, fun _ => ⟨d.name, rfl⟩, ?_⟩
      · intro j p hj
        rcases j with _ | j
        · simp at hj
        rcases j with _ | j
        · simp at hj
        · simp at hj
      · intro hall
        exact absurd hd_mem.1 (hall d hd_mem.2)
    | ok u =>
      obtain ⟨⟩ := u
      have htr := updateViaReplace_trace_ok docs d states fuel hfind
      refine ⟨?_, fun _ => ⟨d.name, by simp [htr]⟩, ?_⟩
      · intro j p hj
        rw [htr] at hj
        rcases j with _ | j
        · simp at hj
        rcases j with _ | j
        · simp at hj
        rcases j with _ | j
        · refine ⟨1, d.name, ?_, ?_⟩
          · omega
          · simp [htr]
        · simp only [List.getElem?_cons_succ] at hj
          have hmem := List.getElem?_mem hj
          rcases mem_pollLoopEvents states fuel 0 _ hmem with h | h <;> simp at h
      · intro hall
        exact absurd hd_mem.1 (hall d hd_mem.2)

/-- Witness for C3: an empty document listing makes the step fail with the
not-found error, with no delete and no upload call issued. -/
theorem update_replace_ordering_witness :
    (updateViaReplace [] (.ok ()) (fun _ => ⟨true, none, none⟩) 1).1 =
        some (Except.error docNotFoundMessage) ∧
      ∀ e ∈ (updateViaReplace [] (.ok ()) (fun _ => ⟨true, none, none⟩) 1).2,
        isDeleteCall e = false ∧ isUploadCall e = false :=
  (update_replace_ordering [] (.ok ()) (fun _ => ⟨true, none, none⟩) 1).2.2
    (fun d hd => absurd hd (List.not_mem_nil d))

/-- C4: lookup-by-display-name over a paginated store listing (or over a
store's document listing) returns the first entry in listing order whose
display name equals the target — a returned entry matches and every entry
listed before it does not — and yields a not-found failure when the listing is
exhausted without a match (the store-side failure is the raise of line 62); in
particular, for the listing `[S1("x"), S2("my-example-store"), S3("my-example-store")]`
the lookup returns `S2`. -/
theorem lookup_first_match (pages : List (List Store)) (target : String)
    (docs : List Document) :
    (∀ s, findStorePaged target pages = some s →
        s.display_name = target ∧
        ∃ l₁ l₂, pages.flatten = l₁ ++ s :: l₂ ∧ ∀ y ∈ l₁, y.display_name ≠ target) ∧
    (findStorePaged target pages = none ↔ ∀ s ∈ pages.flatten, s.display_name ≠ target) ∧
    (findStorePaged file_store_name pages = none →
        scriptStartup (some "key") pages = (Except.error storeNotFoundMessage,
          [RemoteCall.createStore, RemoteCall.listStores])) ∧
    (∀ d, findDocumentInList target docs = some d →
        d.display_name = target ∧
        ∃ l₁ l₂, docs = l₁ ++ d :: l₂ ∧ ∀ y ∈ l₁, y.display_name ≠ target) ∧
    (findDocumentInList target docs = none ↔ ∀ d ∈ docs, d.display_name ≠ target) ∧
    findStorePaged "my-example-store"
        [[⟨"stores/s1", "x"⟩, ⟨"stores/s2", "my-example-store"⟩,
          ⟨"stores/s3", "my-example-store"⟩]] =
      some ⟨"stores/s2", "my-example-store"⟩ := by
  refine ⟨?_, ?_, ?_, ?_, ?_, by decide⟩
  · intro s hs
    rw [findStorePaged_eq_flatten] at hs
    exact firstWithDisplayName_some _ _ hs
  · rw [findStorePaged_eq_flatten]
    exact firstWithDisplayName_none _ _ _
  · intro hnone
    rw [scriptStartup, if_neg (by decide), hnone]
  · intro d hd
    exact firstWithDisplayName_some _ _ hd
  · exact firstWithDisplayName_none _ _ _

/-- Witness for C4: the spec scenario listing, where the duplicate display name
resolves to the first matching store `S2`. -/
theorem lookup_first_match_witness :
    (⟨"stores/s2", "my-example-store"⟩ : Store).display_name = "my-example-store" ∧
      ∃ l₁ l₂,
        [[(⟨"stores/s1", "x"⟩ : Store), ⟨"stores/s2", "my-example-store"⟩,
          ⟨"stores/s3", "my-example-store"⟩]].flatten =
            l₁ ++ (⟨"stores/s2", "my-example-store"⟩ : Store) :: l₂ ∧
          ∀ y ∈ l₁, y.display_name ≠ "my-example-store" :=
  (lookup_first_match
      [[⟨"stores/s1", "x"⟩, ⟨"stores/s2", "my-example-store"⟩,
        ⟨"stores/s3", "my-example-store"⟩]] "my-example-store" []).1
    ⟨"stores/s2", "my-example-store"⟩ (by decide)

/-- C9: the update step overwrites the local file before the remote store is
searched — the local write is the first event of the step's trace — so when no
document matches and the step raises its terminal not-found failure, the local
file has already been modified and the trace records nothing that undoes the
write (no rollback). -/
theorem update_writes_local_before_search (docs : List Document)
    (deleteResult : Except String Unit) (states : Nat → Operation) (fuel : Nat) :
    (updateViaReplace docs deleteResult states fuel).2.head? =
        some (Event.writeLocal doc1_path updated_content) ∧
      ((∀ d ∈ docs, d.display_name ≠ doc1_display_name) →
        (updateViaReplace docs deleteResult states fuel).1 =
            some (Except.error docNotFoundMessage) ∧
          (updateViaReplace docs deleteResult states fuel).2 =
            [Event.writeLocal doc1_path updated_content]) := by
  refine ⟨?_, ?_⟩
  · cases hfind : findDocumentInList doc1_display_name docs with
    | none =>
      rw [updateViaReplace_trace_none docs deleteResult states fuel hfind]
      rfl
    | some d =>
      cases deleteResult with
      | error e₀ =>
        rw [updateViaReplace_trace_delete_error docs d e₀ states fuel hfind]
        rfl
      | ok u =>
        obtain ⟨⟩ := u
        rw [updateViaReplace_trace_ok docs d states fuel hfind]
        rfl
  · intro hall
    have hfind : findDocumentInList doc1_display_name docs = none := by
      rw [findDocumentInList, firstWithDisplayName_none]
      exact hall
    rw [updateViaReplace_trace_none docs deleteResult states fuel hfind]
    exact ⟨rfl, rfl⟩

/-- Witness for C9: a listing holding only `other.txt` — the not-found failure
is raised with the local write already done. -/
theorem update_writes_local_before_search_witness :
    (updateViaReplace [⟨"documents/x", "other.txt"⟩] (.ok ())
        (fun _ => ⟨true, none, none⟩) 1).1 = some (Except.error docNotFoundMessage) ∧
      (updateViaReplace [⟨"documents/x", "other.txt"⟩] (.ok ())
        (fun _ => ⟨true, none, none⟩) 1).2 =
        [Event.writeLocal doc1_path updated_content] :=
  (update_writes_local_before_search [⟨"documents/x", "other.txt"⟩] (.ok ())
      (fun _ => ⟨true, none, none⟩) 1).2 (by decide)
